import Mathlib

/-
Verification of the horse-app scoring and market pipeline
(src/services/evaluator.py, video_features.py, image_features.py, market.py).

Modelling conventions:
- Python floats are modelled as exact rationals (ℚ).  All coefficients in the
  source are short decimal literals, and every concrete value checked here is
  far from any binary-rounding boundary, so the ℚ model agrees with the float
  code on each claim settled below.
- Python's round() (banker's rounding, half-to-even) is modelled by pyRound;
  round(x, n) for n > 0 by pyRoundTo; round(x, -4) by roundNeg4.
- Media decoding (cv2 / imageio) is opaque: extractors are modelled as
  functions of the decoding OUTCOME (file missing / open failed / the list of
  per-pair frame-difference values produced), which is exactly the data the
  branching logic of the source inspects.
- The external market-medians JSON file is modelled as an abstract lookup
  function (String → Option ℚ); the fixed DEFAULTS dict is embedded literally.
-/

/-- Model of Python round() on a rational: round half to even. -/
def pyRound (q : ℚ) : ℤ :=
  if q - ⌊q⌋ < 1/2 then ⌊q⌋
  else if q - ⌊q⌋ = 1/2 then (if ⌊q⌋ % 2 = 0 then ⌊q⌋ else ⌊q⌋ + 1)
  else ⌊q⌋ + 1

/-- Model of Python round(x, n) for n ≥ 1 (round to n decimal places, half to even). -/
def pyRoundTo (n : ℕ) (q : ℚ) : ℚ :=
  (pyRound (q * 10 ^ n) : ℚ) / 10 ^ n

/-- Model of Python int(round(x, -4)): round to the nearest multiple of 10000. -/
def roundNeg4 (q : ℚ) : ℤ :=
  10000 * pyRound (q / 10000)

/-- Computable minimum on ℚ (Python min); definitionally an if, so that the
kernel can evaluate it inside decide. -/
def minQ (a b : ℚ) : ℚ :=
  if a ≤ b then a else b

/-- Computable maximum on ℚ (Python max). -/
def maxQ (a b : ℚ) : ℚ :=
  if a ≤ b then b else a

lemma minQ_eq_min (a b : ℚ) : minQ a b = min a b := by
  rw [minQ, min_def]

lemma maxQ_eq_max (a b : ℚ) : maxQ a b = max a b := by
  rw [maxQ, max_def]

/-- Source _clamp from evaluator.py / video_features.py: max(lo, min(hi, x)). -/
def clampQ (x lo hi : ℚ) : ℚ :=
  maxQ lo (minQ hi x)

lemma clampQ_eq (x lo hi : ℚ) : clampQ x lo hi = max lo (min hi x) := by
  rw [clampQ, maxQ_eq_max, minQ_eq_min]

lemma le_clampQ (x lo hi : ℚ) : lo ≤ clampQ x lo hi := by
  rw [clampQ_eq]; exact le_max_left _ _

lemma clampQ_le (x : ℚ) {lo hi : ℚ} (h : lo ≤ hi) : clampQ x lo hi ≤ hi := by
  rw [clampQ_eq]; exact max_le h (min_le_left _ _)

lemma clampQ_shift_eq_min {x c : ℚ} (hx : 35 ≤ x) (hc : 0 ≤ c) :
    clampQ (x + c) 35 90 = min 90 (x + c) := by
  rw [clampQ_eq]; exact max_eq_right (le_min (by norm_num) (by linarith))

lemma floor_le_pyRound (q : ℚ) : ⌊q⌋ ≤ pyRound q := by
  unfold pyRound
  split_ifs <;> omega

lemma pyRound_le_floor_add_one (q : ℚ) : pyRound q ≤ ⌊q⌋ + 1 := by
  unfold pyRound
  split_ifs <;> omega

lemma le_pyRound {a : ℤ} {q : ℚ} (h : (a : ℚ) ≤ q) : a ≤ pyRound q :=
  le_trans (Int.le_floor.mpr h) (floor_le_pyRound q)

lemma pyRound_intCast (n : ℤ) : pyRound (n : ℚ) = n := by
  unfold pyRound
  norm_num

lemma pyRound_le {b : ℤ} {q : ℚ} (h : q ≤ (b : ℚ)) : pyRound q ≤ b := by
  have hfb : ⌊q⌋ ≤ b := by
    have := Int.floor_mono h
    simpa using this
  rcases lt_or_eq_of_le hfb with h1 | h1
  · exact le_trans (pyRound_le_floor_add_one q) (by omega)
  · have hq : q = (b : ℚ) := by
      have h2 : (⌊q⌋ : ℚ) ≤ q := Int.floor_le q
      rw [h1] at h2
      linarith
    rw [hq, pyRound_intCast]

lemma pyRound_bounds {a b : ℤ} {q : ℚ} (h1 : (a : ℚ) ≤ q) (h2 : q ≤ (b : ℚ)) :
    ((a : ℚ) ≤ (pyRound q : ℚ)) ∧ ((pyRound q : ℚ) ≤ (b : ℚ)) :=
  ⟨by exact_mod_cast le_pyRound h1, by exact_mod_cast pyRound_le h2⟩

lemma pyRound_mono {x y : ℚ} (h : x ≤ y) : pyRound x ≤ pyRound y := by
  have hf : ⌊x⌋ ≤ ⌊y⌋ := Int.floor_mono h
  rcases lt_or_eq_of_le hf with h1 | h1
  · exact le_trans (pyRound_le_floor_add_one x) (le_trans (by omega) (floor_le_pyRound y))
  · have hfx : (⌊x⌋ : ℚ) ≤ x := Int.floor_le x
    unfold pyRound
    rw [h1]
    have hxy : x - (⌊y⌋ : ℚ) ≤ y - (⌊y⌋ : ℚ) := by linarith
    rcases lt_trichotomy (x - (⌊y⌋ : ℚ)) (1/2) with hx | hx | hx
    · rw [if_pos hx]
      split_ifs <;> omega
    · have hy2 : (1:ℚ)/2 ≤ y - (⌊y⌋ : ℚ) := hx ▸ hxy
      rw [if_neg (not_lt.mpr (le_of_eq hx.symm)), if_pos hx]
      rcases eq_or_lt_of_le hy2 with hy | hy
      · rw [if_neg (not_lt.mpr (le_of_eq hy)), if_pos hy.symm]
      · rw [if_neg (not_lt.mpr hy.le), if_neg (ne_of_gt hy)]
        split_ifs <;> omega
    · have hy2 : (1:ℚ)/2 < y - (⌊y⌋ : ℚ) := lt_of_lt_of_le hx hxy
      rw [if_neg (not_lt.mpr hx.le), if_neg (ne_of_gt hx),
          if_neg (not_lt.mpr hy2.le), if_neg (ne_of_gt hy2)]

lemma pyRoundTo_bounds {n : ℕ} {a b : ℤ} {q : ℚ}
    (h1 : (a : ℚ) ≤ q * 10 ^ n) (h2 : q * 10 ^ n ≤ (b : ℚ)) :
    ((a : ℚ) / 10 ^ n ≤ pyRoundTo n q) ∧ (pyRoundTo n q ≤ (b : ℚ) / 10 ^ n) := by
  have hb := pyRound_bounds h1 h2
  have hpos : (0 : ℚ) < 10 ^ n := by positivity
  exact ⟨(div_le_div_iff_of_pos_right hpos).mpr hb.1,
         (div_le_div_iff_of_pos_right hpos).mpr hb.2⟩

/-- Source _rank_from_ability (evaluator.py lines 37-45). -/
def rank_from_ability (a : ℚ) : String :=
  if a ≥ 82 then "A"
  else if a ≥ 72 then "B"
  else if a ≥ 62 then "C"
  else "D"

/-- Star count selected by _stars_from_ability (evaluator.py lines 48-61). -/
def stars_count (a : ℚ) : ℕ :=
  if a ≥ 85 then 5
  else if a ≥ 78 then 4
  else if a ≥ 70 then 3
  else if a ≥ 62 then 2
  else 1

/-- Source _stars_from_ability: the star glyph string, n filled then 5-n empty. -/
def stars_from_ability (a : ℚ) : String :=
  String.mk (List.replicate (stars_count a) '★' ++ List.replicate (5 - stars_count a) '☆')

/-- Source _distance_bucket (evaluator.py lines 64-81): returns (bucket, shortness).
A falsy or non-positive distance defaults to 1600 m. -/
def distance_bucket (distance_m : ℚ) : String × ℚ :=
  let d := if distance_m ≤ 0 then (1600 : ℚ) else distance_m
  let shortness := clampQ ((2.2 - d / 1000) / 1.2) 0 1
  if d ≤ 1400 then ("Sprint", shortness)
  else if d ≤ 2000 then ("Mile", shortness)
  else ("Stayer", shortness)

/-- The seven derived traits (values are the floats stored in the source's dict). -/
structure Traits where
  Speed : ℚ
  Power : ℚ
  Stamina : ℚ
  Durability : ℚ
  Risk : ℚ
  Acceleration : ℚ
  Stability : ℚ
deriving DecidableEq, Repr

/-- Source _derive_traits (evaluator.py lines 84-133), translated line by line.
The source's single if/elif on the bucket is rendered as one if per affected
trait; this is equivalent because the bucket is a single string. -/
def derive_traits (body_index photo_index motion_index speed_index
    pedigree_index accel_index stability_index distance_m : ℚ) : Traits :=
  let bucket := (distance_bucket distance_m).1
  let shortness := (distance_bucket distance_m).2
  let speed := clampQ (0.60 * speed_index + 0.15 * pedigree_index + 0.25 * motion_index) 35 90
  let power := clampQ (0.55 * body_index + 0.25 * photo_index + 0.20 * pedigree_index) 35 90
  let stamina := clampQ
    (0.40 * motion_index + 0.35 * body_index + 0.25 * pedigree_index + (1 - shortness) * 8) 35 90
  let durability := clampQ (0.45 * photo_index + 0.35 * body_index + 0.20 * stability_index) 35 90
  let risk := clampQ (100 - (0.65 * stability_index + 0.35 * durability)) 10 80
  let acceleration := clampQ (0.55 * accel_index + 0.30 * speed + 0.15 * motion_index) 35 90
  let stability := clampQ (0.70 * stability_index + 0.20 * durability + 0.10 * (100 - risk)) 35 90
  let speed2 := if bucket = "Sprint" then clampQ (speed + 2) 35 90 else speed
  let acceleration2 := if bucket = "Sprint" then clampQ (acceleration + 2) 35 90 else acceleration
  let stamina2 := if bucket = "Stayer" then clampQ (stamina + 2) 35 90 else stamina
  let durability2 := if bucket = "Stayer" then clampQ (durability + 1) 35 90 else durability
  { Speed := (pyRound speed2 : ℚ)
    Power := (pyRound power : ℚ)
    Stamina := (pyRound stamina2 : ℚ)
    Durability := (pyRound durability2 : ℚ)
    Risk := (pyRound risk : ℚ)
    Acceleration := (pyRound acceleration2 : ℚ)
    Stability := (pyRound stability : ℚ) }

/-- The dict returned by _ability_from_traits. -/
structure AbilityPack where
  Ability : ℚ
  alpha : ℚ
  turfiness : ℚ
  speed_star : ℚ
  risk_star : ℚ
deriving DecidableEq, Repr

/-- Source _ability_from_traits (evaluator.py lines 136-176).  The source's
sigmoid 1/(1+exp(-x)) is transcendental, so the embedding takes the sigmoid
as an explicit function parameter `sig`; every theorem below holds for every
choice of `sig`, in particular for the true sigmoid. -/
def ability_from_traits (sig : ℚ → ℚ) (t : Traits) (distance_m : ℚ) : AbilityPack :=
  let k : ℚ := 0.085
  let turfiness := sig (k * (t.Speed - t.Power))
  let shortness := (distance_bucket distance_m).2
  let alpha := clampQ (0.35 + 0.45 * shortness + 0.10 * (turfiness - 0.5) * 2) 0.30 0.90
  let speed_star := 0.75 * t.Speed + 0.25 * t.Acceleration
  let risk_star := 0.70 * t.Risk + 0.30 * (100 - t.Stability)
  let lam : ℚ := 0.10
  let rho : ℚ := 0.18
  let ability := clampQ
    (alpha * speed_star + (1 - alpha) * t.Stamina + lam * t.Durability - rho * risk_star) 1 99
  { Ability := pyRoundTo 2 ability
    alpha := pyRoundTo 3 alpha
    turfiness := pyRoundTo 3 turfiness
    speed_star := pyRoundTo 2 speed_star
    risk_star := pyRoundTo 2 risk_star }

/-- Confidence computation of evaluate_horse (evaluator.py lines 361-367, and
the returned round(conf, 2) at line 385). -/
def confidence (photo_present video_present : Bool) (used_measure : ℕ) : ℚ :=
  pyRoundTo 2 (clampQ
    (0.45 + (if photo_present then 0.20 else 0) + (if video_present then 0.20 else 0)
      + minQ 0.15 (0.05 * (used_measure : ℚ))) 0.30 0.95)

/-- Sire names treated as speed lines (evaluator.py line 328). -/
def speed_hints : List String :=
  ["Speightstown", "スパイツタウン", "エスケンデレヤ", "Eskendereya"]

/-- Damsire names treated as power lines (evaluator.py line 329). -/
def power_hints : List String :=
  ["サウスヴィグラス", "South Vigorous", "アジアエクスプレス", "Asia Express"]

/-- Pedigree prior of evaluate_horse (evaluator.py lines 322-336); inputs are
the stripped sire/damsire strings. -/
def pedigree_index (sire damsire : String) : ℚ :=
  clampQ (50 + (if sire ∈ speed_hints then 6 else 0)
             + (if damsire ∈ power_hints then 4 else 0)) 40 75

/-- Body index and used-measure count of evaluate_horse (evaluator.py lines
278-298); inputs are the _as_float-parsed payload numbers (0 when absent). -/
def body_index_and_count (bw height girth cannon : ℚ) : ℚ × ℕ :=
  let used := (if 0 < bw then 1 else 0) + (if 0 < height then 1 else 0)
            + (if 0 < girth then 1 else 0) + (if 0 < cannon then 1 else 0)
  if used = 0 then (50, 0)
  else
    let bw_s := if 0 < bw then clampQ ((bw - 380) / 2 + 50) 35 90 else 50
    let ht_s := if 0 < height then clampQ ((height - 150) * 2 + 50) 35 90 else 50
    let gi_s := if 0 < girth then clampQ ((girth - 170) * 1.5 + 50) 35 90 else 50
    let ca_s := if 0 < cannon then clampQ ((cannon - 19) * 6 + 50) 35 90 else 50
    (pyRoundTo 2 (0.45 * bw_s + 0.20 * ht_s + 0.20 * gi_s + 0.15 * ca_s), used)

/-- Trait-derivation slice of evaluate_horse (evaluator.py lines 272-350):
measurements feed the body index, the photo/video indices come in as numbers
(50 when the corresponding media is absent), pedigree comes from the names. -/
def evaluate_traits (bw height girth cannon photo_index motion_index speed_index
    accel_index stability_index : ℚ) (sire damsire : String) (distance_m : ℚ) : Traits :=
  derive_traits (body_index_and_count bw height girth cannon).1 photo_index motion_index
    speed_index (pedigree_index sire damsire) accel_index stability_index distance_m

lemma pedigree_index_Speightstown : pedigree_index "Speightstown" "" = 56 := by
  unfold pedigree_index speed_hints power_hints
  rw [if_pos (by decide), if_neg (by decide)]
  norm_num [clampQ, minQ, maxQ]

lemma distance_bucket_1200 : distance_bucket 1200 = ("Sprint", 5/6) := by
  unfold distance_bucket
  norm_num [clampQ, minQ, maxQ]

lemma body_index_and_count_zero : body_index_and_count 0 0 0 0 = (50, 0) := by
  unfold body_index_and_count
  norm_num

lemma derive_traits_sprint_example :
    derive_traits 50 50 50 50 56 50 50 1200 =
      { Speed := 53, Power := 51, Stamina := 53, Durability := 50, Risk := 50,
        Acceleration := 52, Stability := 50 } := by
  have hne : ("Sprint" : String) ≠ "Stayer" := by decide
  unfold derive_traits
  rw [distance_bucket_1200]
  norm_num [hne, clampQ, minQ, maxQ, pyRound]

/-- Failure note of the video extractor (video_features.py). -/
def videoFailNote : String := "動画の読込に失敗したため平均値で補完"

/-- No-usable-frames note of the imageio strategy (video_features.py). -/
def videoNoFramesNote : String := "動画から有効フレームを取得できず平均値で補完"

/-- Success note of the OpenCV strategy (video_features.py line 140). -/
def videoSuccessNote : String := "動画（歩様/キャンター）から推進量・瞬発・安定性を算出"

/-- Success note of the imageio strategy (video_features.py line 84). -/
def videoSuccessNoteImageio : String := "動画（歩様/キャンター）から推進量・瞬発・安定性を算出（imageio）"

/-- The dict returned by the video feature extractor (int scores plus note). -/
structure VideoPack where
  motion_score : ℤ
  speed_score : ℤ
  accel_score : ℤ
  stability_score : ℤ
  volatility : ℤ
  note_ja : String
deriving DecidableEq, Repr

/-- Source _pack (video_features.py lines 20-45). -/
def pack (motion speed var : ℚ) (note_ja : String) : VideoPack :=
  let volatility := clampQ ((var / 30) * 100) 0 100
  let accel := clampQ (40 + 0.55 * volatility) 35 90
  let stability := clampQ (90 - 0.70 * volatility) 35 90
  { motion_score := pyRound (clampQ motion 0 100)
    speed_score := pyRound (clampQ speed 0 100)
    accel_score := pyRound accel
    stability_score := pyRound stability
    volatility := pyRound volatility
    note_ja := note_ja }

/-- Mean of a difference list (np.mean). -/
def meanQ (l : List ℚ) : ℚ :=
  l.sum / l.length

/-- Population variance of a difference list (np.var). -/
def varQ (l : List ℚ) : ℚ :=
  (l.map (fun x => (x - meanQ l) ^ 2)).sum / l.length

/-- Shared success tail of both video strategies (video_features.py lines
133-141 and 77-85): normalize mean/variance and pack. -/
def scoresFromDiffs (diffs : List ℚ) (note_ja : String) : VideoPack :=
  let m := meanQ diffs
  let v := varQ diffs
  let motion := maxQ 35 (minQ 90 ((m / 10) * 100))
  let speed := maxQ 35 (minQ 90 ((m / 10) * 85 + (v / 30) * 15))
  pack motion speed v note_ja

/-- Outcome of the primary (OpenCV) decoding strategy.  Frame pixel data is
opaque to the embedding: `sampled diffs` carries the per-consecutive-pair
mean absolute grayscale differences that the sampling loop of
video_motion_features produced (empty when no frame pair could be read). -/
inductive PrimaryOutcome where
  | noFile
  | openFail
  | sampled (diffs : List ℚ)
deriving DecidableEq, Repr

/-- Outcome of the imageio (fallback) decoding strategy: either the decoder
raised, or it buffered `frames` frames (≤ 240 in the source) from which the
sampling loop produced the difference list `diffs`. -/
inductive ImageioOutcome where
  | raised
  | sampled (frames : ℕ) (diffs : List ℚ)
deriving DecidableEq, Repr

/-- Source _video_motion_features_imageio (video_features.py lines 48-87):
`iioAvailable` models `iio is not None`. -/
def video_motion_features_imageio (iioAvailable : Bool) (o : ImageioOutcome) : VideoPack :=
  if ¬ iioAvailable then pack 50 50 0 videoFailNote
  else
    match o with
    | .raised => pack 50 50 0 videoFailNote
    | .sampled frames diffs =>
        if frames < 3 then pack 50 50 0 videoNoFramesNote
        else if diffs.isEmpty then pack 50 50 0 videoNoFramesNote
        else scoresFromDiffs diffs videoSuccessNoteImageio

/-- Source video_motion_features (video_features.py lines 90-141): dispatch on
the primary outcome; `fallback` is the result of the imageio strategy on the
same file (the source calls _video_motion_features_imageio there). -/
def video_motion_features (pr : PrimaryOutcome) (fallback : VideoPack) : VideoPack :=
  match pr with
  | .noFile => pack 50 50 0 videoFailNote
  | .openFail => fallback
  | .sampled diffs => if diffs.isEmpty then fallback else scoresFromDiffs diffs videoSuccessNote

/-- Failure note of the photo extractor (image_features.py lines 16 and 20). -/
def photoFailNote : String := "側面写真の読込に失敗したため平均値で補完"

/-- Success note of the photo extractor (image_features.py line 41). -/
def photoSuccessNote : String := "側面写真の鮮明度と輪郭情報から馬体補正を適用"

/-- The dict returned by image_body_feature. -/
structure PhotoResult where
  score : ℤ
  note_ja : String
deriving DecidableEq, Repr

/-- Outcome of reading the side photo: the path does not exist, cv2.imread
returned None, or the image decoded with height h, width w, Laplacian
variance `sharp` and edge-pixel fraction `edgeFrac`. -/
inductive ImageOutcome where
  | missing
  | unreadable
  | decoded (h w : ℕ) (sharp edgeFrac : ℚ)
deriving DecidableEq, Repr

/-- Source image_body_feature (image_features.py lines 9-42). -/
def image_body_feature (o : ImageOutcome) : PhotoResult :=
  match o with
  | .missing => { score := 50, note_ja := photoFailNote }
  | .unreadable => { score := 50, note_ja := photoFailNote }
  | .decoded h w sharp edgeFrac =>
      let sharp_score := minQ 100 (maxQ 0 ((sharp / 200) * 100))
      let fg_score := 100 - minQ 60 (|edgeFrac - 0.08| * 600)
      let ar := (w : ℚ) / maxQ 1 (h : ℚ)
      let ar_score := 100 - minQ 50 (|ar - 1.6| * 35)
      let score := maxQ 35 (minQ 90 (0.45 * sharp_score + 0.35 * fg_score + 0.20 * ar_score))
      { score := pyRound score, note_ja := photoSuccessNote }

/-- The dict returned by estimate_market (the two fixed rationale strings of
market.py lines 59-62 are constants and are omitted). -/
structure MarketResult where
  yen_low : ℤ
  yen_high : ℤ
  anchor : ℤ
deriving DecidableEq, Repr

/-- Source DEFAULTS.get(sire, 1500000) (market.py lines 10-14 and 37): the
fixed per-name default anchors with the global fallback constant. -/
def defaults_anchor (sire : String) : ℚ :=
  if sire = "オールザベスト" then 3300000
  else if sire = "アジアエクスプレス" then 2000000
  else if sire = "エスケンデレヤ" then 1700000
  else 1500000

/-- Anchor selection of estimate_market (market.py lines 35-37): the explicit
override if parseable (safe_float ≠ None, modelled as Option.some), else the
external medians DB entry, else the per-name default, else 1500000. -/
def sire_median_of (db : String → Option ℚ) (sire : String) (override : Option ℚ) : ℚ :=
  match override with
  | some x => x
  | none => (db sire).getD (defaults_anchor sire)

/-- Source estimate_market (market.py lines 26-69).  `db` models the external
market_medians.json lookup; the four Option arguments model
safe_float(market_inputs.get(...)) (None for missing or unparseable text);
`sex` is the stripped sex string, checked by substring as in the source. -/
def estimate_market (db : String → Option ℚ) (sire sex : String)
    (sire_fee_median dam_value blacktype_count nearby_gsw : Option ℚ) : MarketResult :=
  let sire_median := sire_median_of db sire sire_fee_median
  let dam_value := dam_value.getD 0
  let blacktype := blacktype_count.getD 0
  let near_gsw := nearby_gsw.getD 0
  let base := sire_median + minQ 3000000 (dam_value * 0.25)
              + blacktype * 250000 + near_gsw * 350000
  let base := if "牝".data <:+: sex.data then base * 1.06
              else if "牡".data <:+: sex.data then base * 1.03
              else base
  let low := roundNeg4 (base * 0.65)
  let high := roundNeg4 (base * 1.50)
  { yen_low := max 0 low
    yen_high := max low high
    anchor := roundNeg4 sire_median }

lemma rank_eq_A_iff (a : ℚ) : rank_from_ability a = "A" ↔ 82 ≤ a := by
  unfold rank_from_ability
  split_ifs with h1 h2 h3
  · simpa using h1
  · exact ⟨fun hh => absurd hh (by decide), fun hh => absurd hh h1⟩
  · exact ⟨fun hh => absurd hh (by decide), fun hh => absurd hh h1⟩
  · exact ⟨fun hh => absurd hh (by decide), fun hh => absurd hh h1⟩

lemma rank_eq_B_iff (a : ℚ) : rank_from_ability a = "B" ↔ 72 ≤ a ∧ a < 82 := by
  unfold rank_from_ability
  split_ifs with h1 h2 h3
  · exact ⟨fun hh => absurd hh (by decide), fun hh => absurd hh.2 (not_lt.mpr h1)⟩
  · exact ⟨fun _ => ⟨h2, not_le.mp h1⟩, fun _ => rfl⟩
  · exact ⟨fun hh => absurd hh (by decide), fun hh => absurd hh.1 h2⟩
  · exact ⟨fun hh => absurd hh (by decide), fun hh => absurd hh.1 h2⟩

lemma rank_eq_C_iff (a : ℚ) : rank_from_ability a = "C" ↔ 62 ≤ a ∧ a < 72 := by
  unfold rank_from_ability
  split_ifs with h1 h2 h3
  · exact ⟨fun hh => absurd hh (by decide), fun hh => absurd hh.2 (not_lt.mpr (by linarith))⟩
  · exact ⟨fun hh => absurd hh (by decide), fun hh => absurd hh.2 (not_lt.mpr h2)⟩
  · exact ⟨fun _ => ⟨h3, not_le.mp h2⟩, fun _ => rfl⟩
  · exact ⟨fun hh => absurd hh (by decide), fun hh => absurd hh.1 h3⟩

lemma rank_eq_D_iff (a : ℚ) : rank_from_ability a = "D" ↔ a < 62 := by
  unfold rank_from_ability
  split_ifs with h1 h2 h3
  · exact ⟨fun hh => absurd hh (by decide), fun hh => absurd hh (not_lt.mpr (by linarith))⟩
  · exact ⟨fun hh => absurd hh (by decide), fun hh => absurd hh (not_lt.mpr (by linarith))⟩
  · exact ⟨fun hh => absurd hh (by decide), fun hh => absurd hh (not_lt.mpr h3)⟩
  · exact ⟨fun _ => not_le.mp h3, fun _ => rfl⟩

lemma stars_count_eq_5_iff (a : ℚ) : stars_count a = 5 ↔ 85 ≤ a := by
  unfold stars_count
  split_ifs with h1 h2 h3 h4
  · simpa using h1
  · exact ⟨fun hh => absurd hh (by decide), fun hh => absurd hh h1⟩
  · exact ⟨fun hh => absurd hh (by decide), fun hh => absurd hh h1⟩
  · exact ⟨fun hh => absurd hh (by decide), fun hh => absurd hh h1⟩
  · exact ⟨fun hh => absurd hh (by decide), fun hh => absurd hh h1⟩

lemma stars_count_eq_4_iff (a : ℚ) : stars_count a = 4 ↔ 78 ≤ a ∧ a < 85 := by
  unfold stars_count
  split_ifs with h1 h2 h3 h4
  · exact ⟨fun hh => absurd hh (by decide), fun hh => absurd hh.2 (not_lt.mpr h1)⟩
  · exact ⟨fun _ => ⟨h2, not_le.mp h1⟩, fun _ => rfl⟩
  · exact ⟨fun hh => absurd hh (by decide), fun hh => absurd hh.1 h2⟩
  · exact ⟨fun hh => absurd hh (by decide), fun hh => absurd hh.1 h2⟩
  · exact ⟨fun hh => absurd hh (by decide), fun hh => absurd hh.1 h2⟩

lemma stars_count_eq_3_iff (a : ℚ) : stars_count a = 3 ↔ 70 ≤ a ∧ a < 78 := by
  unfold stars_count
  split_ifs with h1 h2 h3 h4
  · exact ⟨fun hh => absurd hh (by decide), fun hh => absurd hh.2 (not_lt.mpr (by linarith))⟩
  · exact ⟨fun hh => absurd hh (by decide), fun hh => absurd hh.2 (not_lt.mpr h2)⟩
  · exact ⟨fun _ => ⟨h3, not_le.mp h2⟩, fun _ => rfl⟩
  · exact ⟨fun hh => absurd hh (by decide), fun hh => absurd hh.1 h3⟩
  · exact ⟨fun hh => absurd hh (by decide), fun hh => absurd hh.1 h3⟩

lemma stars_count_eq_2_iff (a : ℚ) : stars_count a = 2 ↔ 62 ≤ a ∧ a < 70 := by
  unfold stars_count
  split_ifs with h1 h2 h3 h4
  · exact ⟨fun hh => absurd hh (by decide), fun hh => absurd hh.2 (not_lt.mpr (by linarith))⟩
  · exact ⟨fun hh => absurd hh (by decide), fun hh => absurd hh.2 (not_lt.mpr (by linarith))⟩
  · exact ⟨fun hh => absurd hh (by decide), fun hh => absurd hh.2 (not_lt.mpr h3)⟩
  · exact ⟨fun _ => ⟨h4, not_le.mp h3⟩, fun _ => rfl⟩
  · exact ⟨fun hh => absurd hh (by decide), fun hh => absurd hh.1 h4⟩

lemma stars_count_eq_1_iff (a : ℚ) : stars_count a = 1 ↔ a < 62 := by
  unfold stars_count
  split_ifs with h1 h2 h3 h4
  · exact ⟨fun hh => absurd hh (by decide), fun hh => absurd hh (not_lt.mpr (by linarith))⟩
  · exact ⟨fun hh => absurd hh (by decide), fun hh => absurd hh (not_lt.mpr (by linarith))⟩
  · exact ⟨fun hh => absurd hh (by decide), fun hh => absurd hh (not_lt.mpr (by linarith))⟩
  · exact ⟨fun hh => absurd hh (by decide), fun hh => absurd hh (not_lt.mpr h4)⟩
  · exact ⟨fun _ => not_le.mp h4, fun _ => rfl⟩

/-- Claim C1: for every trait vector and distance the ability computation
derives turfiness = sigmoid(0.085·(Speed−Power)), alpha = clamp(0.35 +
0.45·shortness + 0.10·(turfiness−0.5)·2, 0.30, 0.90), speed* =
0.75·Speed + 0.25·Acceleration, risk* = 0.70·Risk + 0.30·(100−Stability),
and Ability = clamp(alpha·speed* + (1−alpha)·Stamina + 0.10·Durability −
0.18·risk*, 1, 99) rounded to 2 decimals (the reported alpha, turfiness,
speed*, risk* carry the source's 3-, 3-, 2-, 2-decimal output rounding of
exactly these quantities); the rank is A iff ability ≥ 82, B iff
72 ≤ ability < 82, C iff 62 ≤ ability < 72, D otherwise, with the exact
boundary values 82.00→A, 81.99→B, 72.00→B, 62.00→C, 61.99→D, and the star
count is 5/4/3/2/1 at thresholds 85/78/70/62.  Stated for an arbitrary
sigmoid function g (the source's transcendental sigmoid is one instance). -/
theorem ability_formula_rank_and_star_thresholds :
    (∀ (g : ℚ → ℚ) (t : Traits) (d : ℚ),
      let turf := g (0.085 * (t.Speed - t.Power))
      let alpha := clampQ (0.35 + 0.45 * (distance_bucket d).2 + 0.10 * (turf - 0.5) * 2) 0.30 0.90
      let sstar := 0.75 * t.Speed + 0.25 * t.Acceleration
      let rstar := 0.70 * t.Risk + 0.30 * (100 - t.Stability)
      (ability_from_traits g t d).Ability =
          pyRoundTo 2 (clampQ (alpha * sstar + (1 - alpha) * t.Stamina
            + 0.10 * t.Durability - 0.18 * rstar) 1 99)
        ∧ (ability_from_traits g t d).turfiness = pyRoundTo 3 turf
        ∧ (ability_from_traits g t d).alpha = pyRoundTo 3 alpha
        ∧ (ability_from_traits g t d).speed_star = pyRoundTo 2 sstar
        ∧ (ability_from_traits g t d).risk_star = pyRoundTo 2 rstar)
    ∧ (∀ a : ℚ,
        (rank_from_ability a = "A" ↔ 82 ≤ a)
        ∧ (rank_from_ability a = "B" ↔ 72 ≤ a ∧ a < 82)
        ∧ (rank_from_ability a = "C" ↔ 62 ≤ a ∧ a < 72)
        ∧ (rank_from_ability a = "D" ↔ a < 62))
    ∧ rank_from_ability 82 = "A" ∧ rank_from_ability 81.99 = "B"
    ∧ rank_from_ability 72 = "B" ∧ rank_from_ability 62 = "C" ∧ rank_from_ability 61.99 = "D"
    ∧ (∀ a : ℚ,
        (stars_count a = 5 ↔ 85 ≤ a)
        ∧ (stars_count a = 4 ↔ 78 ≤ a ∧ a < 85)
        ∧ (stars_count a = 3 ↔ 70 ≤ a ∧ a < 78)
        ∧ (stars_count a = 2 ↔ 62 ≤ a ∧ a < 70)
        ∧ (stars_count a = 1 ↔ a < 62)) := by
  refine ⟨fun g t d => ⟨rfl, rfl, rfl, rfl, rfl⟩,
    fun a => ⟨rank_eq_A_iff a, rank_eq_B_iff a, rank_eq_C_iff a, rank_eq_D_iff a⟩,
    (rank_eq_A_iff 82).mpr (by norm_num),
    (rank_eq_B_iff 81.99).mpr (by norm_num),
    (rank_eq_B_iff 72).mpr (by norm_num),
    (rank_eq_C_iff 62).mpr (by norm_num),
    (rank_eq_D_iff 61.99).mpr (by norm_num),
    fun a => ⟨stars_count_eq_5_iff a, stars_count_eq_4_iff a, stars_count_eq_3_iff a,
      stars_count_eq_2_iff a, stars_count_eq_1_iff a⟩⟩

/-- Claim C2: for every set of input indices and distance, the derived Risk is
the rounding of clamp(100 − (0.65·stability_idx + 0.35·Durability), 10, 80)
where Durability is the unrounded, un-nudged value computed in the same pass;
the Sprint bucket adds 2 to Speed and Acceleration (re-clamped to at most 90),
the Stayer bucket adds 2 to Stamina and 1 to Durability (re-clamped to at most
90), the Mile bucket adds nothing; and every returned trait is the rounding of
the corresponding real-valued expression, i.e. rounding happens only at the
end. -/
theorem risk_order_nudges_and_final_rounding
    (b p m s pe a st d : ℚ) :
    (let t := derive_traits b p m s pe a st d
    let bucket := (distance_bucket d).1
    let shortness := (distance_bucket d).2
    let speedR := clampQ (0.60 * s + 0.15 * pe + 0.25 * m) 35 90
    let powerR := clampQ (0.55 * b + 0.25 * p + 0.20 * pe) 35 90
    let staminaR := clampQ (0.40 * m + 0.35 * b + 0.25 * pe + (1 - shortness) * 8) 35 90
    let durR := clampQ (0.45 * p + 0.35 * b + 0.20 * st) 35 90
    let riskR := clampQ (100 - (0.65 * st + 0.35 * durR)) 10 80
    let accelR := clampQ (0.55 * a + 0.30 * speedR + 0.15 * m) 35 90
    let stabR := clampQ (0.70 * st + 0.20 * durR + 0.10 * (100 - riskR)) 35 90
    t.Risk = (pyRound riskR : ℚ)
    ∧ t.Speed = (pyRound (if bucket = "Sprint" then min 90 (speedR + 2) else speedR) : ℚ)
    ∧ t.Acceleration = (pyRound (if bucket = "Sprint" then min 90 (accelR + 2) else accelR) : ℚ)
    ∧ t.Stamina = (pyRound (if bucket = "Stayer" then min 90 (staminaR + 2) else staminaR) : ℚ)
    ∧ t.Durability = (pyRound (if bucket = "Stayer" then min 90 (durR + 1) else durR) : ℚ)
    ∧ t.Power = (pyRound powerR : ℚ)
    ∧ t.Stability = (pyRound stabR : ℚ)) := by
  simp only [derive_traits]
  refine ⟨trivial, ?_, ?_, ?_, ?_, trivial, trivial⟩
  · by_cases h : (distance_bucket d).1 = "Sprint"
    · rw [if_pos h, if_pos h, clampQ_shift_eq_min (le_clampQ _ _ _) (by norm_num)]
    · rw [if_neg h, if_neg h]
  · by_cases h : (distance_bucket d).1 = "Sprint"
    · rw [if_pos h, if_pos h, clampQ_shift_eq_min (le_clampQ _ _ _) (by norm_num)]
    · rw [if_neg h, if_neg h]
  · by_cases h : (distance_bucket d).1 = "Stayer"
    · rw [if_pos h, if_pos h, clampQ_shift_eq_min (le_clampQ _ _ _) (by norm_num)]
    · rw [if_neg h, if_neg h]
  · by_cases h : (distance_bucket d).1 = "Stayer"
    · rw [if_pos h, if_pos h, clampQ_shift_eq_min (le_clampQ _ _ _) (by norm_num)]
    · rw [if_neg h, if_neg h]

lemma pyRound_mem_cast {q lo hi : ℚ} {a b : ℤ} (e1 : lo = (a : ℚ)) (e2 : hi = (b : ℚ))
    (h1 : lo ≤ q) (h2 : q ≤ hi) : lo ≤ (pyRound q : ℚ) ∧ (pyRound q : ℚ) ≤ hi := by
  subst e1; subst e2
  exact pyRound_bounds h1 h2

set_option maxHeartbeats 1000000 in
lemma traits_in_range (b p m s pe a st d : ℚ) :
    let t := derive_traits b p m s pe a st d
    ((35:ℚ) ≤ t.Speed ∧ t.Speed ≤ 90) ∧ ((35:ℚ) ≤ t.Power ∧ t.Power ≤ 90)
    ∧ ((35:ℚ) ≤ t.Stamina ∧ t.Stamina ≤ 90) ∧ ((35:ℚ) ≤ t.Durability ∧ t.Durability ≤ 90)
    ∧ ((10:ℚ) ≤ t.Risk ∧ t.Risk ≤ 80) ∧ ((35:ℚ) ≤ t.Acceleration ∧ t.Acceleration ≤ 90)
    ∧ ((35:ℚ) ≤ t.Stability ∧ t.Stability ≤ 90) := by
  simp only [derive_traits]
  refine ⟨pyRound_mem_cast (a := 35) (b := 90) (by norm_num) (by norm_num) ?_ ?_,
          pyRound_mem_cast (a := 35) (b := 90) (by norm_num) (by norm_num) ?_ ?_,
          pyRound_mem_cast (a := 35) (b := 90) (by norm_num) (by norm_num) ?_ ?_,
          pyRound_mem_cast (a := 35) (b := 90) (by norm_num) (by norm_num) ?_ ?_,
          pyRound_mem_cast (a := 10) (b := 80) (by norm_num) (by norm_num) ?_ ?_,
          pyRound_mem_cast (a := 35) (b := 90) (by norm_num) (by norm_num) ?_ ?_,
          pyRound_mem_cast (a := 35) (b := 90) (by norm_num) (by norm_num) ?_ ?_⟩
  · split_ifs <;> exact le_clampQ _ _ _
  · split_ifs <;> exact clampQ_le _ (by norm_num)
  · exact le_clampQ _ _ _
  · exact clampQ_le _ (by norm_num)
  · split_ifs <;> exact le_clampQ _ _ _
  · split_ifs <;> exact clampQ_le _ (by norm_num)
  · split_ifs <;> exact le_clampQ _ _ _
  · split_ifs <;> exact clampQ_le _ (by norm_num)
  · exact le_clampQ _ _ _
  · exact clampQ_le _ (by norm_num)
  · split_ifs <;> exact le_clampQ _ _ _
  · split_ifs <;> exact clampQ_le _ (by norm_num)
  · exact le_clampQ _ _ _
  · exact clampQ_le _ (by norm_num)

lemma pyRoundTo_clampQ_mem (k : ℕ) (a b : ℤ) (x lo hi : ℚ)
    (e1 : lo * 10 ^ k = (a : ℚ)) (e2 : hi * 10 ^ k = (b : ℚ)) (hab : lo ≤ hi) :
    lo ≤ pyRoundTo k (clampQ x lo hi) ∧ pyRoundTo k (clampQ x lo hi) ≤ hi := by
  have hp : (0:ℚ) < 10 ^ k := by positivity
  have h1 : (a : ℚ) ≤ clampQ x lo hi * 10 ^ k := by
    rw [← e1]
    exact mul_le_mul_of_nonneg_right (le_clampQ x lo hi) hp.le
  have h2 : clampQ x lo hi * 10 ^ k ≤ (b : ℚ) := by
    rw [← e2]
    exact mul_le_mul_of_nonneg_right (clampQ_le x hab) hp.le
  have hb := pyRoundTo_bounds h1 h2
  have ea : (a : ℚ) / 10 ^ k = lo := by rw [← e1]; field_simp
  have eb : (b : ℚ) / 10 ^ k = hi := by rw [← e2]; field_simp
  rw [ea, eb] at hb
  exact hb

lemma ability_alpha_in_range (g : ℚ → ℚ) (t : Traits) (d : ℚ) :
    ((1:ℚ) ≤ (ability_from_traits g t d).Ability ∧ (ability_from_traits g t d).Ability ≤ 99)
    ∧ ((0.30:ℚ) ≤ (ability_from_traits g t d).alpha
        ∧ (ability_from_traits g t d).alpha ≤ 0.90) := by
  unfold ability_from_traits
  exact ⟨pyRoundTo_clampQ_mem 2 100 9900 _ 1 99 (by norm_num) (by norm_num) (by norm_num),
         pyRoundTo_clampQ_mem 3 300 900 _ 0.30 0.90 (by norm_num) (by norm_num) (by norm_num)⟩

lemma pyRoundTo2_conf_mem {z : ℚ} (h1 : (0.45:ℚ) ≤ z) (h2 : z ≤ 0.95) :
    (0.45:ℚ) ≤ pyRoundTo 2 z ∧ pyRoundTo 2 z ≤ 0.95 := by
  have ha : ((45:ℤ) : ℚ) ≤ z * 10 ^ 2 := by push_cast; norm_num; linarith
  have hb2 : z * 10 ^ 2 ≤ ((95:ℤ) : ℚ) := by push_cast; norm_num; linarith
  have hb := pyRoundTo_bounds ha hb2
  norm_num at hb ⊢
  exact hb

lemma confidence_in_range (p v : Bool) (m : ℕ) :
    (0.45:ℚ) ≤ confidence p v m ∧ confidence p v m ≤ 0.95 := by
  unfold confidence
  have h1 : (0:ℚ) ≤ (if p then (0.20:ℚ) else 0) := by split_ifs <;> norm_num
  have h2 : (0:ℚ) ≤ (if v then (0.20:ℚ) else 0) := by split_ifs <;> norm_num
  have h3 : (0:ℚ) ≤ minQ 0.15 (0.05 * (m : ℚ)) := by
    rw [minQ_eq_min]
    exact le_min (by norm_num) (by positivity)
  have hy : (0.45:ℚ) ≤ 0.45 + (if p then (0.20:ℚ) else 0) + (if v then (0.20:ℚ) else 0)
      + minQ 0.15 (0.05 * (m : ℚ)) := by linarith
  have hlo : (0.45:ℚ) ≤ clampQ (0.45 + (if p then (0.20:ℚ) else 0)
      + (if v then (0.20:ℚ) else 0) + minQ 0.15 (0.05 * (m : ℚ))) 0.30 0.95 := by
    rw [clampQ_eq]
    exact le_trans (le_min (by norm_num) hy) (le_max_right _ _)
  have hhi : clampQ (0.45 + (if p then (0.20:ℚ) else 0)
      + (if v then (0.20:ℚ) else 0) + minQ 0.15 (0.05 * (m : ℚ))) 0.30 0.95 ≤ 0.95 :=
    clampQ_le _ (by norm_num)
  exact pyRoundTo2_conf_mem hlo hhi

/-- Claim C3: for every input to the evaluation pipeline (arbitrary index
values and distance, i.e. any payload and any photo/video outcome), every
derived trait lies in [35,90] except Risk which lies in [10,80]; the ability
score lies in [1,99]; alpha lies in [0.30,0.90] (for every sigmoid function);
and confidence lies in [0.30,0.95]. -/
theorem pipeline_value_ranges :
    (∀ b p m s pe a st d : ℚ,
      let t := derive_traits b p m s pe a st d
      ((35:ℚ) ≤ t.Speed ∧ t.Speed ≤ 90) ∧ ((35:ℚ) ≤ t.Power ∧ t.Power ≤ 90)
      ∧ ((35:ℚ) ≤ t.Stamina ∧ t.Stamina ≤ 90) ∧ ((35:ℚ) ≤ t.Durability ∧ t.Durability ≤ 90)
      ∧ ((10:ℚ) ≤ t.Risk ∧ t.Risk ≤ 80) ∧ ((35:ℚ) ≤ t.Acceleration ∧ t.Acceleration ≤ 90)
      ∧ ((35:ℚ) ≤ t.Stability ∧ t.Stability ≤ 90))
    ∧ (∀ (g : ℚ → ℚ) (t : Traits) (d : ℚ),
        ((1:ℚ) ≤ (ability_from_traits g t d).Ability
          ∧ (ability_from_traits g t d).Ability ≤ 99)
        ∧ ((0.30:ℚ) ≤ (ability_from_traits g t d).alpha
          ∧ (ability_from_traits g t d).alpha ≤ 0.90))
    ∧ (∀ (p v : Bool) (m : ℕ), (0.30:ℚ) ≤ confidence p v m ∧ confidence p v m ≤ 0.95) :=
  ⟨traits_in_range,
   ability_alpha_in_range,
   fun p v m => ⟨le_trans (by norm_num) (confidence_in_range p v m).1,
                 (confidence_in_range p v m).2⟩⟩

/-- Claim C10: for every input to evaluate_horse the confidence is at least
0.45 (base term 0.45 plus only non-negative contributions, so the documented
lower clamp bound 0.30 is never binding) and at most 0.95. -/
theorem confidence_at_least_base :
    ∀ (p v : Bool) (m : ℕ), (0.45:ℚ) ≤ confidence p v m ∧ confidence p v m ≤ 0.95 :=
  confidence_in_range

lemma imageio_note_nonempty (i : Bool) (o : ImageioOutcome) :
    (video_motion_features_imageio i o).note_ja ≠ "" := by
  cases i with
  | false =>
      have h : (video_motion_features_imageio false o).note_ja = videoFailNote := by
        cases o <;> rfl
      rw [h]; decide
  | true =>
      cases o with
      | raised => decide
      | sampled f d =>
          by_cases h3 : f < 3
          · have h : (video_motion_features_imageio true (.sampled f d)).note_ja
                = videoNoFramesNote := by
              simp [video_motion_features_imageio, pack, h3]
            rw [h]; decide
          · by_cases hd : d.isEmpty
            · have h : (video_motion_features_imageio true (.sampled f d)).note_ja
                  = videoNoFramesNote := by
                simp [video_motion_features_imageio, pack, h3, hd]
              rw [h]; decide
            · have h : (video_motion_features_imageio true (.sampled f d)).note_ja
                  = videoSuccessNoteImageio := by
                simp [video_motion_features_imageio, scoresFromDiffs, pack, h3, hd]
              rw [h]; decide

/-- Claim C9: the photo extractor returns the neutral score 50 with its
failure note when the file is missing or unreadable, and neither extractor
ever reaches the caller without a fully-populated result: on every decoding
outcome (the embedding enumerates each failure mode of the source as an
explicit case) both extractors return a complete result record carrying a
non-empty diagnostic note. -/
theorem extractor_failure_paths :
    image_body_feature .missing = { score := 50, note_ja := photoFailNote }
    ∧ image_body_feature .unreadable = { score := 50, note_ja := photoFailNote }
    ∧ (∀ o : ImageOutcome, (image_body_feature o).note_ja ≠ "")
    ∧ (∀ (pr : PrimaryOutcome) (i : Bool) (o : ImageioOutcome),
        (video_motion_features pr (video_motion_features_imageio i o)).note_ja ≠ "") := by
  refine ⟨rfl, rfl, ?_, ?_⟩
  · intro o
    cases o <;> simp only [image_body_feature] <;> decide
  · intro pr i o
    cases pr with
    | noFile => simp only [video_motion_features, pack]; decide
    | openFail => exact imageio_note_nonempty i o
    | sampled diffs =>
        simp only [video_motion_features]
        split_ifs
        · exact imageio_note_nonempty i o
        · simp only [scoresFromDiffs, pack]; decide

/-- Claim C8: the market anchor is selected with exactly this precedence: the
parseable explicit sire-fee override, else the sire's entry in the external
medians table, else the sire's entry in the fixed per-name default table,
else the global fallback 1,500,000; and estimate_market reports this selected
anchor (rounded to the nearest 10,000). -/
theorem anchor_precedence :
    (∀ (f : String → Option ℚ) (s : String) (x : ℚ), sire_median_of f s (some x) = x)
    ∧ (∀ (f : String → Option ℚ) (s : String),
        sire_median_of f s none = (f s).getD (defaults_anchor s))
    ∧ (∀ (g : String → ℚ) (s : String), sire_median_of (fun n => some (g n)) s none = g s)
    ∧ (∀ s : String, sire_median_of (fun _ => none) s none = defaults_anchor s)
    ∧ defaults_anchor "オールザベスト" = 3300000
    ∧ defaults_anchor "アジアエクスプレス" = 2000000
    ∧ defaults_anchor "エスケンデレヤ" = 1700000
    ∧ (∀ s : String, s ≠ "オールザベスト" → s ≠ "アジアエクスプレス" → s ≠ "エスケンデレヤ" →
        defaults_anchor s = 1500000)
    ∧ (∀ (f : String → Option ℚ) (sire sex : String) (o v c w : Option ℚ),
        (estimate_market f sire sex o v c w).anchor = roundNeg4 (sire_median_of f sire o)) := by
  refine ⟨fun f s x => rfl, fun f s => rfl, fun g s => rfl, fun s => rfl,
          by decide, by decide, by decide, ?_, fun f sire sex o v c w => rfl⟩
  intro s h1 h2 h3
  unfold defaults_anchor
  rw [if_neg h1, if_neg h2, if_neg h3]

/-- Witness for C8: at a sire name absent from every table, the override is
used when present, and the default-table layer yields the global fallback. -/
theorem anchor_precedence_witness :
    sire_median_of (fun _ => none) "Frankel" (some 123) = 123
    ∧ defaults_anchor "Frankel" = 1500000 :=
  ⟨anchor_precedence.1 (fun _ => none) "Frankel" 123,
   anchor_precedence.2.2.2.2.2.2.2.1 "Frankel" (by decide) (by decide) (by decide)⟩

/-- Counterexample for C4: with exactly one usable difference sample (fewer
than 2), the extractor does NOT fall back to the secondary strategy: it scores
the single sample directly, rather than returning the secondary result. -/
theorem video_single_sample_no_fallback :
    ([(0:ℚ)].length = 1)
    ∧ video_motion_features (.sampled [0]) (video_motion_features_imageio true .raised)
        ≠ video_motion_features_imageio true .raised := by
  refine ⟨rfl, fun hcontra => ?_⟩
  have h1 : (video_motion_features (.sampled [0])
      (video_motion_features_imageio true .raised)).motion_score = 35 := by
    norm_num [video_motion_features, scoresFromDiffs, meanQ, varQ, pack,
      clampQ, minQ, maxQ, pyRound]
  have h2 : (video_motion_features_imageio true .raised).motion_score = 50 := by
    norm_num [video_motion_features_imageio, pack, clampQ, minQ, maxQ, pyRound]
  rw [hcontra, h2] at h1
  exact absurd h1 (by norm_num)

/-- Amended C4: the extractor falls back to the secondary strategy exactly
when the primary fails to open the source or produces zero difference samples
(one sample is already scored directly); the secondary strategy returns the
neutral pack when the decoder is unavailable, raises, buffers fewer than 3
frames, or produces no difference samples; and the neutral zero-variance pack
is motion=50, speed=50, accel=40, stability=90, volatility=0 with the failure
note. -/
theorem video_fallback_amended :
    (∀ fb : VideoPack, video_motion_features .openFail fb = fb)
    ∧ (∀ fb : VideoPack, video_motion_features (.sampled []) fb = fb)
    ∧ (∀ (x : ℚ) (l : List ℚ) (fb : VideoPack),
        video_motion_features (.sampled (x :: l)) fb = scoresFromDiffs (x :: l) videoSuccessNote)
    ∧ (∀ o : ImageioOutcome, video_motion_features_imageio false o = pack 50 50 0 videoFailNote)
    ∧ video_motion_features_imageio true .raised = pack 50 50 0 videoFailNote
    ∧ (∀ l : List ℚ,
        video_motion_features_imageio true (.sampled 0 l) = pack 50 50 0 videoNoFramesNote)
    ∧ (∀ l : List ℚ,
        video_motion_features_imageio true (.sampled 1 l) = pack 50 50 0 videoNoFramesNote)
    ∧ (∀ l : List ℚ,
        video_motion_features_imageio true (.sampled 2 l) = pack 50 50 0 videoNoFramesNote)
    ∧ (∀ n : ℕ,
        video_motion_features_imageio true (.sampled n []) = pack 50 50 0 videoNoFramesNote)
    ∧ pack 50 50 0 videoFailNote =
        { motion_score := 50, speed_score := 50, accel_score := 40, stability_score := 90,
          volatility := 0, note_ja := videoFailNote } := by
  refine ⟨fun fb => rfl, fun fb => rfl, fun x l fb => rfl, fun o => ?_, rfl, fun l => rfl,
          fun l => rfl, fun l => rfl, fun n => ?_, ?_⟩
  · cases o <;> rfl
  · by_cases h : n < 3
    · simp [video_motion_features_imageio, h]
    · simp [video_motion_features_imageio, h]
  · norm_num [pack, clampQ, minQ, maxQ, pyRound]

lemma market_example_eval :
    estimate_market (fun _ => none) "Frosted" "牡" (some 2000000) (some 1000000) (some 2) (some 1)
      = { yen_low := 2080000, yen_high := 4790000, anchor := 2000000 } := by
  have p1 : ¬ ("牝".data <:+: "牡".data) := by decide
  have p2 : ("牡".data <:+: "牡".data) := by decide
  norm_num [estimate_market, sire_median_of, p1, p2, minQ, roundNeg4, pyRound,
    max_def, MarketResult.mk.injEq]

/-- Counterexample for C5: at the spec's own market example (sire unseen,
override 2,000,000, dam 1,000,000, blacktype 2, nearby GSW 1, male), the code
returns yen_low = 2,080,000 (3,193,000×0.65 = 2,075,450 rounds up to the
nearest 10,000), not the claimed 2,070,000. -/
theorem market_example_low_counterexample :
    (estimate_market (fun _ => none) "Frosted" "牡" (some 2000000) (some 1000000)
        (some 2) (some 1)).yen_low = 2080000
    ∧ (2080000 : ℤ) ≠ 2070000 := by
  refine ⟨?_, by norm_num⟩
  rw [market_example_eval]

/-- Amended C5: with sire unseen, override 2,000,000, dam_value 1,000,000,
blacktype 2, nearby GSW 1 and male sex, base = 3,100,000, ×1.03 = 3,193,000,
and the returned range is low = 2,080,000, high = 4,790,000, anchor
2,000,000. -/
theorem market_example_amended :
    ((2000000:ℚ) + minQ 3000000 (1000000 * 0.25) + 2 * 250000 + 1 * 350000 = 3100000)
    ∧ ((3100000:ℚ) * 1.03 = 3193000)
    ∧ estimate_market (fun _ => none) "Frosted" "牡" (some 2000000) (some 1000000)
        (some 2) (some 1) = { yen_low := 2080000, yen_high := 4790000, anchor := 2000000 } :=
  ⟨by norm_num [minQ], by norm_num, market_example_eval⟩

/-- Counterexample for C6: at distance 1200 m the shortness factor is
(2.2 − 1.2)/1.2 = 5/6, not 1.0 as the claim asserts. -/
theorem sprint_shortness_counterexample :
    (distance_bucket 1200).2 = 5/6 ∧ ((5:ℚ)/6) ≠ 1 := by
  refine ⟨?_, by norm_num⟩
  rw [distance_bucket_1200]

/-- Amended C6: for distance_m = 1200, no photo, no video, no measurements and
sire "Speightstown", the pipeline yields pedigree_index 56, bucket "Sprint"
with shortness 5/6, and Speed and Acceleration receive the +2 Sprint nudge:
their un-nudged roundings would be 51 and 50, and the returned traits are
Speed 53 and Acceleration 52. -/
theorem sprint_example_amended :
    pedigree_index "Speightstown" "" = 56
    ∧ distance_bucket 1200 = ("Sprint", 5/6)
    ∧ evaluate_traits 0 0 0 0 50 50 50 50 50 "Speightstown" "" 1200 =
        { Speed := 53, Power := 51, Stamina := 53, Durability := 50, Risk := 50,
          Acceleration := 52, Stability := 50 }
    ∧ (pyRound (clampQ (0.60 * 50 + 0.15 * 56 + 0.25 * 50) 35 90) : ℚ) = 51
    ∧ (pyRound (clampQ (clampQ (0.60 * 50 + 0.15 * 56 + 0.25 * 50) 35 90 + 2) 35 90) : ℚ) = 53
    ∧ (pyRound (clampQ (0.55 * 50 + 0.30 * clampQ (0.60 * 50 + 0.15 * 56 + 0.25 * 50) 35 90
        + 0.15 * 50) 35 90) : ℚ) = 50
    ∧ (pyRound (clampQ (clampQ (0.55 * 50 + 0.30 * clampQ (0.60 * 50 + 0.15 * 56 + 0.25 * 50) 35 90
        + 0.15 * 50) 35 90 + 2) 35 90) : ℚ) = 52 := by
  refine ⟨pedigree_index_Speightstown, distance_bucket_1200, ?_, ?_, ?_, ?_, ?_⟩
  · unfold evaluate_traits
    rw [pedigree_index_Speightstown]
    have hb : (body_index_and_count 0 0 0 0).1 = 50 := by rw [body_index_and_count_zero]
    rw [hb]
    exact derive_traits_sprint_example
  · norm_num [clampQ, minQ, maxQ, pyRound]
  · norm_num [clampQ, minQ, maxQ, pyRound]
  · norm_num [clampQ, minQ, maxQ, pyRound]
  · norm_num [clampQ, minQ, maxQ, pyRound]

/-- Counterexample for C7: with a negative dam_value override of −100,000,000
(and everything else absent), base = 1,500,000 − 25,000,000 = −23,500,000, so
yen_low = max(0, −15,280,000) = 0 but yen_high = max(−15,280,000, −35,250,000)
= −15,280,000 < 0: the returned estimate violates high ≥ low ≥ 0. -/
theorem market_negative_input_counterexample :
    (estimate_market (fun _ => none) "" "" none (some (-100000000)) none none)
      = { yen_low := 0, yen_high := -15280000, anchor := 1500000 }
    ∧ ¬ ((0:ℤ) ≤ -15280000) := by
  have n1 : ("" : String) ≠ "オールザベスト" := by decide
  have n2 : ("" : String) ≠ "アジアエクスプレス" := by decide
  have n3 : ("" : String) ≠ "エスケンデレヤ" := by decide
  have n4 : ¬ ("牝".data <:+: "".data) := by decide
  have n5 : ¬ ("牡".data <:+: "".data) := by decide
  refine ⟨?_, by decide⟩
  norm_num [estimate_market, sire_median_of, defaults_anchor, n1, n2, n3, n4, n5,
    minQ, roundNeg4, pyRound, max_def, Option.getD, MarketResult.mk.injEq]

lemma defaults_anchor_nonneg (s : String) : 0 ≤ defaults_anchor s := by
  unfold defaults_anchor
  split_ifs <;> norm_num

lemma sire_median_nonneg {f : String → Option ℚ} {s : String} {o : Option ℚ}
    (hf : ∀ n x, f n = some x → 0 ≤ x) (ho : ∀ x, o = some x → 0 ≤ x) :
    0 ≤ sire_median_of f s o := by
  unfold sire_median_of
  cases o with
  | some x => exact ho x rfl
  | none =>
      cases hfs : f s with
      | some x => simpa using hf s x hfs
      | none => simpa using defaults_anchor_nonneg s

lemma roundNeg4_nonneg {q : ℚ} (h : 0 ≤ q) : 0 ≤ roundNeg4 q := by
  unfold roundNeg4
  have h2 : (0:ℤ) ≤ pyRound (q / 10000) := le_pyRound (by push_cast; positivity)
  exact mul_nonneg (by norm_num) h2

lemma roundNeg4_mono {x y : ℚ} (h : x ≤ y) : roundNeg4 x ≤ roundNeg4 y := by
  unfold roundNeg4
  have h2 : x / 10000 ≤ y / 10000 := by linarith
  exact mul_le_mul_of_nonneg_left (pyRound_mono h2) (by norm_num)

/-- Amended C7: the returned estimate has yen_low ≥ 0 unconditionally (first
conjunct, for every input), and whenever every resolved numeric input is
non-negative (every value the medians table can return, the override when
present, and the dam/blacktype/GSW overrides after their missing-value
defaulting), yen_high ≥ yen_low holds and both bounds are exact multiples of
10,000.  (For negative overrides the ordering can fail, see the
counterexample.) -/
theorem market_bounds_nonneg_inputs :
    (∀ (f : String → Option ℚ) (s t : String) (o v c w : Option ℚ),
      0 ≤ (estimate_market f s t o v c w).yen_low)
    ∧ (∀ (f : String → Option ℚ) (s t : String) (o v c w : Option ℚ),
      (∀ n y, f n = some y → 0 ≤ y) → (∀ y, o = some y → 0 ≤ y) →
      0 ≤ v.getD 0 → 0 ≤ c.getD 0 → 0 ≤ w.getD 0 →
      (estimate_market f s t o v c w).yen_low ≤ (estimate_market f s t o v c w).yen_high
      ∧ (∃ k : ℤ, (estimate_market f s t o v c w).yen_low = 10000 * k)
      ∧ (∃ k : ℤ, (estimate_market f s t o v c w).yen_high = 10000 * k)) := by
  constructor
  · intro f s t o v c w
    exact le_max_left 0 _
  intro f s t o v c w hf ho hv hc hw
  have hmd : 0 ≤ sire_median_of f s o := sire_median_nonneg hf ho
  set b0 := sire_median_of f s o + minQ 3000000 (v.getD 0 * 0.25)
      + c.getD 0 * 250000 + w.getD 0 * 350000 with hb0def
  have hb0 : 0 ≤ b0 := by
    have hmin : 0 ≤ minQ 3000000 (v.getD 0 * 0.25) := by
      rw [minQ_eq_min]
      exact le_min (by norm_num) (mul_nonneg hv (by norm_num))
    have hcc : 0 ≤ c.getD 0 * 250000 := mul_nonneg hc (by norm_num)
    have hww : 0 ≤ w.getD 0 * 350000 := mul_nonneg hw (by norm_num)
    rw [hb0def]
    linarith
  set b1 := if "牝".data <:+: t.data then b0 * 1.06
            else if "牡".data <:+: t.data then b0 * 1.03 else b0 with hb1def
  have hb1 : 0 ≤ b1 := by
    rw [hb1def]
    split_ifs
    · exact mul_nonneg hb0 (by norm_num)
    · exact mul_nonneg hb0 (by norm_num)
    · exact hb0
  have hr : estimate_market f s t o v c w =
      { yen_low := max 0 (roundNeg4 (b1 * 0.65))
        yen_high := max (roundNeg4 (b1 * 0.65)) (roundNeg4 (b1 * 1.50))
        anchor := roundNeg4 (sire_median_of f s o) } := rfl
  have hlow0 : 0 ≤ roundNeg4 (b1 * 0.65) := roundNeg4_nonneg (mul_nonneg hb1 (by norm_num))
  have hlh : roundNeg4 (b1 * 0.65) ≤ roundNeg4 (b1 * 1.50) := roundNeg4_mono (by nlinarith)
  rw [hr]
  refine ⟨?_, ?_, ?_⟩
  · rw [max_eq_right hlow0]
    exact le_trans hlh (le_max_right _ _)
  · exact ⟨pyRound (b1 * 0.65 / 10000), by rw [max_eq_right hlow0]; rfl⟩
  · exact ⟨pyRound (b1 * 1.50 / 10000), by rw [max_eq_right hlh]; rfl⟩

/-- Witness for the amended C7: the unconditional non-negativity of yen_low
and, at an all-absent input (whose resolved values are non-negative), the
ordering yen_low ≤ yen_high, both by applying market_bounds_nonneg_inputs. -/
theorem market_bounds_nonneg_inputs_witness :
    0 ≤ (estimate_market (fun _ => none) "A" "" none none none none).yen_low
    ∧ (estimate_market (fun _ => none) "A" "" none none none none).yen_low
        ≤ (estimate_market (fun _ => none) "A" "" none none none none).yen_high := by
  refine ⟨market_bounds_nonneg_inputs.1 (fun _ => none) "A" "" none none none none, ?_⟩
  exact (market_bounds_nonneg_inputs.2 (fun _ => none) "A" "" none none none none
    (fun n y hy => Option.noConfusion hy) (fun y hy => Option.noConfusion hy)
    (by simp) (by simp) (by simp)).1
